import Mathlib

/-!
Verification development for the AnkleBreaker Session Ledger Engine
(`src/main.py`).

The Python source is shallowly embedded: pandas `DataFrame`s holding
registrant records become lists of a `Row` structure, the per-session
mutable `state` dict becomes an `EngineState` structure, the file system
becomes an association list from path to file contents, and Python
`float` arithmetic is modelled exactly over `ℚ`.  Python string
operations (`in`, `.endswith`, `.replace`, `.lower()`, `.strip()`,
`os.path.basename`) are re-implemented over `List Char` so that every
definition is executable and kernel-reducible.  I/O outcomes that depend
on the outside world (file locks, pre-existing files, folder access) are
supplied by an explicit oracle.
-/

namespace AnkleBreaker

/-! ## String helpers (Python semantics over `List Char`) -/

/-- Membership of `pat` as a contiguous infix of `hay`, i.e. Python
`pat in hay` for strings, on character lists. -/
def infixChars (pat : List Char) : List Char → Bool
  | [] => pat.isEmpty
  | c :: rest => pat.isPrefixOf (c :: rest) || infixChars pat rest

/-- Python `pat in hay` substring containment. -/
def containsSubstr (hay pat : String) : Bool :=
  infixChars pat.toList hay.toList

/-- Python `s.endswith(suf)`. -/
def endsWithStr (s suf : String) : Bool :=
  suf.toList.reverse.isPrefixOf s.toList.reverse

/-- One left-to-right, non-overlapping pass replacing every occurrence
of `pat` by `rep`, i.e. Python `s.replace(pat, rep)` on character
lists.  The empty pattern is treated as matching nowhere.  Recursion is
by fuel so the definition is structurally recursive; each step consumes
at least one character, so fuel equal to the list length is exact. -/
def replChars (pat rep : List Char) : ℕ → List Char → List Char
  | 0, l => l
  | _ + 1, [] => []
  | fuel + 1, c :: rest =>
    if !pat.isEmpty && pat.isPrefixOf (c :: rest) then
      rep ++ replChars pat rep fuel (rest.drop (pat.length - 1))
    else
      c :: replChars pat rep fuel rest

/-- Python `s.replace(pat, rep)` (all occurrences). -/
def replaceAll (s pat rep : String) : String :=
  String.mk (replChars pat.toList rep.toList s.toList.length s.toList)

/-- ASCII lower-casing of one character, i.e. Python `str.lower()`
restricted to the ASCII range that the source's phrases and comp-list
use. -/
def lowerChar (c : Char) : Char :=
  if 'A' ≤ c && c ≤ 'Z' then Char.ofNat (c.toNat + 32) else c

/-- Python `s.lower()`. -/
def lowerStr (s : String) : String :=
  String.mk (s.toList.map lowerChar)

/-- Whitespace as stripped by Python `str.strip()`. -/
def isSpaceChar (c : Char) : Bool :=
  c = ' ' || c = '\t' || c = '\n' || c = '\r'

/-- Python `s.strip()`. -/
def stripStr (s : String) : String :=
  String.mk (((s.toList.dropWhile isSpaceChar).reverse.dropWhile isSpaceChar).reverse)

/-- `os.path.basename` for forward-slash paths (the only separator used
in the model). -/
def basename (p : String) : String :=
  String.mk (p.toList.foldl (fun acc c => if c = '/' then [] else acc ++ [c]) [])

/-- `re.sub(r"-flag(?=\.csv$)", "", path)` from
`update_flag_state_for_file`: strip one `-flag` occurring right before a
final `.csv`; any other path is returned unchanged. -/
def stripFlagCsv (p : String) : String :=
  if endsWithStr p "-flag.csv" then
    String.mk (p.toList.take (p.toList.length - 9) ++ ".csv".toList)
  else p

/-! ## Status classifier (`determine_default_status`, main.py:103-121) -/

/-- The fixed comp-list `COMPED_NAMES` (main.py:79-91). -/
def COMPED_NAMES : List String :=
  ["vincent robertson", "ryan marvin", "zorano tubo", "kaleta tubo",
   "tiniira tubo", "marena tubo", "cole hessler", "meyer knapp",
   "tina knapp", "anderson leclair", "the ghost"]

/-- `STATUS_LIST` (main.py:92). -/
def STATUS_LIST : List String :=
  ["regular", "manual", "comped", "refund", "waitlist", "other"]

/-- `determine_default_status(notes, name)` (main.py:103-121), embedded
clause by clause from the source. -/
def determine_default_status (notes name : String) : String :=
  let name_lower := lowerStr (stripStr name)
  if COMPED_NAMES.contains name_lower then "comped"
  else
    let notes_lower := lowerStr notes
    if containsSubstr notes_lower "comped" then "comped"
    else if containsSubstr notes_lower
        "no capacity, and room on the waiting list : register" then "waitlist"
    else if containsSubstr notes_lower "refund" then "refund"
    else if containsSubstr notes_lower "manually confirmed by" then "manual"
    else if containsSubstr notes_lower "not over capacity: register" then "regular"
    else "other"

/-- The ordered rule list of the specification for the classifier: each
entry is a guard together with the status it yields.  Written from the
spec's wording of §4.1 (first match wins, case-insensitive substring
containment), to be compared against `determine_default_status`. -/
def specRules (notes name : String) : List (Bool × String) :=
  [ (COMPED_NAMES.contains (lowerStr (stripStr name)), "comped"),
    (containsSubstr (lowerStr notes) "comped", "comped"),
    (containsSubstr (lowerStr notes)
      "no capacity, and room on the waiting list : register", "waitlist"),
    (containsSubstr (lowerStr notes) "refund", "refund"),
    (containsSubstr (lowerStr notes) "manually confirmed by", "manual"),
    (containsSubstr (lowerStr notes) "not over capacity: register", "regular") ]

/-- First-match semantics over the spec's rule list, falling through to
`other`: the classifier as the specification words it. -/
def classifySpec (notes name : String) : String :=
  match (specRules notes name).find? (fun r => r.1) with
  | some r => r.2
  | none => "other"

/-! ## Financial engine (`save_fee_schedule` main.py:1773-1800;
`build_payment_summary` main.py:2044-2065) -/

/-- The per-unit processor-fee loop: `save_fee_schedule` (main.py:1789-1794)
and `build_payment_summary` (main.py:2052-2055) both add, once per
`regular` unit, `price*0.05 + 0.09` when `price <= 10` and
`price*0.0349 + 0.49` otherwise. -/
def paypal_fee (price : ℚ) (regular : ℕ) : ℚ :=
  ((List.range regular).map (fun _ =>
    if price ≤ 10 then price * 0.05 + 0.09 else price * 0.0349 + 0.49)).sum

/-- Per-file financial row `(gross, trackithub, paypal, net)` exactly as
computed in `build_payment_summary` (main.py:2050-2057) and, identically,
in `save_fee_schedule` (main.py:1786-1796). -/
def row_financials (price : ℚ) (regular manual : ℕ) : ℚ × ℚ × ℚ × ℚ :=
  let gross : ℚ := ((regular : ℚ) + (manual : ℚ)) * price
  let trackithub := gross * 0.10
  let paypal := paypal_fee price regular
  (gross, trackithub, paypal, gross - trackithub - paypal)

/-- `fee_schedule.get(fname, 0.0)` / `prices.get(fname, 0)`: a file with
no price entry contributes with price 0. -/
def price_for (fees : List (String × ℚ)) (fname : String) : ℚ :=
  (List.lookup fname fees).getD 0

/-! ## Registrant records and file record sets -/

/-- One registrant row of a session CSV table (columns of main.py:2889
plus the three derived columns `default_status`, `current_status`,
`AnkleBreaker notes`). -/
structure Row where
  name : String
  email : String
  phone : String
  status_raw : String
  reg_time : String
  notes : String
  default_status : String
  current_status : String
  abnotes : String
deriving DecidableEq, Repr

/-- A pandas DataFrame backing one file: its rows plus whether the
`default_status` / `current_status` columns are present (they may be
absent in a raw export before ingestion). -/
structure Frame where
  hasDefault : Bool
  hasCurrent : Bool
  rows : List Row
deriving DecidableEq, Repr

/-- `any(df["current_status"] == "other")` on the row list. -/
def anyOther (rows : List Row) : Bool :=
  rows.any (fun r => r.current_status == "other")

/-- `is_file_flagged(df)` (main.py:148-149): the `current_status` column
is present and some entry equals `"other"`. -/
def is_file_flagged (f : Frame) : Bool :=
  f.hasCurrent && anyOther f.rows

/-- The single-file status edit `df.at[row_idx, "current_status"] = status`
(handler_fn, main.py:1539-1541): mutate exactly the addressed row's
`current_status`. -/
def setStatus : List Row → ℕ → String → List Row
  | [], _, _ => []
  | r :: rs, 0, st => { r with current_status := st } :: rs
  | r :: rs, n + 1, st => r :: setStatus rs n st

/-- `on_save_note` (main.py:2413-2429), the record-level part: write the
reviewer note into every row whose `Name` matches, then re-derive the
whole `default_status` column from `Notes` and `Name` (main.py:2423-2424). -/
def on_save_note (rows : List Row) (pname text : String) : List Row :=
  (rows.map (fun r => if r.name == pname then { r with abnotes := text } else r)).map
    (fun r => { r with default_status := determine_default_status r.notes r.name })

/-- Ingestion of one uploaded frame in `create_session` (main.py:884-888):
derive `default_status` from the classifier only when the column is
absent, then seed `current_status` from `default_status` only when that
column is absent. -/
def ingest_frame (f : Frame) : Frame :=
  let rows1 :=
    if f.hasDefault then f.rows
    else f.rows.map (fun r =>
      { r with default_status := determine_default_status r.notes r.name })
  let rows2 :=
    if f.hasCurrent then rows1
    else rows1.map (fun r => { r with current_status := r.default_status })
  ⟨true, true, rows2⟩

/-- Reading one stored CSV back in `load_session_from_folder`
(main.py:2886-2903): `default_status` is unconditionally re-derived from
`Notes` and `Name` (main.py:2893), a persisted `current_status` column is
kept as-is and only seeded from `default_status` when absent
(main.py:2894-2895), and the reviewer-note column is reset to the empty
string (main.py:2897).  CSV serialization is modelled as the identity on
the stored rows. -/
def load_csv_frame (stored : Frame) : Frame :=
  let rows1 := stored.rows.map (fun r =>
    { r with default_status := determine_default_status r.notes r.name })
  let rows2 :=
    if stored.hasCurrent then rows1
    else rows1.map (fun r => { r with current_status := r.default_status })
  ⟨true, true, rows2.map (fun r => { r with abnotes := "" })⟩

/-! ## Association-list primitives (Python `dict` / on-disk directory) -/

/-- `d[k]` is defined, i.e. Python `k in d`. -/
def alContains : List (String × α) → String → Bool
  | [], _ => false
  | (k1, _) :: t, k => (k1 == k) || alContains t k

/-- Python `d[k] = v`: overwrite in place when the key exists, append
otherwise. -/
def alSet : List (String × α) → String → α → List (String × α)
  | [], k, v => [(k, v)]
  | (k1, v1) :: t, k, v =>
    if k1 == k then (k, v) :: t else (k1, v1) :: alSet t k v

/-- Python `d.pop(k)` key removal. -/
def alRemove : List (String × α) → String → List (String × α)
  | [], _ => []
  | (k1, v1) :: t, k =>
    if k1 == k then alRemove t k else (k1, v1) :: alRemove t k

/-- `d[new] = d.pop(old)` guarded by `old in d`
(propagate_file_rename, main.py:1224-1233; metadata fees, main.py:1330-1332). -/
def alRekey (l : List (String × α)) (old new : String) : List (String × α) :=
  match List.lookup old l with
  | none => l
  | some v => alSet (alRemove l old) new v

/-! ## Engine state and the flag propagator -/

/-- Per-file status tallies (`value_counts().to_dict()`). -/
abbrev Counts := List (String × ℕ)

/-- The content of a session's `metadata.json` as far as the flag
propagator touches it. -/
structure Meta where
  fees : List (String × ℚ)
  flagged_files : List String
  flagged : Bool
deriving DecidableEq, Repr

/-- The in-memory engine state around `update_flag_state_for_file`:
the session-relative indexes of the `state` dict, the current session
folder, the csv files on disk (path ↦ stored rows), and the stored
metadata file.  On-disk folder objects are not modelled separately; the
session folder's name is the `current_session` string. -/
structure EngineState where
  csv_paths : List String
  dataframes : List (String × List Row)
  status_counts : List (String × Counts)
  fee_schedule : List (String × ℚ)
  current_session : String
  disk : List (String × List Row)
  diskMeta : Meta
deriving DecidableEq, Repr

/-- Outcomes the outside world can impose on the propagator's I/O:
whether the source csv is accessible, whether `os.remove` of a
pre-existing destination succeeds, whether the n-th `os.rename` attempt
succeeds, and the session-folder checks of main.py:1348-1354. -/
structure RenameOracle where
  accessible : Bool
  removeOk : Bool
  renameOk : ℕ → Bool
  folderPreOk : Bool
  folderAccess : Bool
  folderRenameOk : Bool

/-- How one call of `update_flag_state_for_file` ended, as observable by
the operator: silently did nothing, surfaced the named "File Locked" /
"Folder Locked" message boxes, aborted with only a console print
(the failed `os.remove` branch, main.py:1309-1311), or ran to the end. -/
inductive OpResult where
  | ok
  | noop
  | fileLocked
  | folderLocked
  | silentAbort
deriving DecidableEq, Repr

/-- Step 0 of `update_flag_state_for_file` (main.py:1256-1259): resolve
the argument to the tracked path with the same basename. -/
def resolve_path (s : EngineState) (p : String) : String :=
  match s.csv_paths.find? (fun q => basename q == basename p) with
  | some q => q
  | none => p

/-- The rename loop `for attempt in range(3)` (main.py:1314-1321):
the rename lands iff one of the first three attempts succeeds. -/
def renameAttemptsSucceed (o : RenameOracle) : Bool :=
  (List.range 3).any (fun i => o.renameOk i)

/-- `propagate_file_rename(old, new, state, stack)` (main.py:1216-1233):
rewrite `csv_paths`, and rekey `dataframes` by path and `status_counts` /
`fee_schedule` by basename. -/
def propagate_file_rename (old new : String) (s : EngineState) : EngineState :=
  { s with
    csv_paths := s.csv_paths.map (fun p => if p == old then new else p),
    dataframes := alRekey s.dataframes old new,
    status_counts := alRekey s.status_counts (basename old) (basename new),
    fee_schedule := alRekey s.fee_schedule (basename old) (basename new) }

/-- The session-folder rename block (main.py:1346-1375): replace every
occurrence of the old session path in `current_session` and in every
tracked key. -/
def rename_session_folder (orig newSess : String) (s : EngineState) : EngineState :=
  { s with
    current_session := newSess,
    csv_paths := s.csv_paths.map (fun p => replaceAll p orig newSess),
    dataframes := s.dataframes.map (fun kv => (replaceAll kv.1 orig newSess, kv.2)),
    status_counts := s.status_counts.map
      (fun kv => (basename (replaceAll kv.1 orig newSess), kv.2)),
    fee_schedule := s.fee_schedule.map
      (fun kv => (basename (replaceAll kv.1 orig newSess), kv.2)) }

/-- `update_flag_state_for_file(csv_path, state, stack)`
(main.py:1254-1390), embedded branch by branch.  The metadata dict the
code loads from `metadata.json` is the state's `diskMeta`; the code's
local updated copy is only committed back at Step 5, which the
"Folder Locked" early return (main.py:1351-1353) skips. -/
def update_flag_state_for_file (o : RenameOracle) (csv_path0 : String)
    (s : EngineState) : EngineState × OpResult :=
  let csv_path := resolve_path s csv_path0
  match List.lookup csv_path s.dataframes with
  | none => (s, .noop)
  | some df =>
    let still_flagged := anyOther df
    let is_flagged_file := containsSubstr (basename csv_path) "-flag.csv"
    if !is_flagged_file || still_flagged then (s, .noop)
    else
      let old_basename := basename csv_path
      let unflagged_path := stripFlagCsv csv_path
      let new_basename := basename unflagged_path
      let metadata := s.diskMeta
      if !(alContains s.disk csv_path && o.accessible) then (s, .fileLocked)
      else
        let disk1 := alSet s.disk csv_path df
        if alContains disk1 unflagged_path && !o.removeOk then
          ({ s with disk := disk1 }, .silentAbort)
        else
          let disk2 := if alContains disk1 unflagged_path then
              alRemove disk1 unflagged_path else disk1
          if !renameAttemptsSucceed o then ({ s with disk := disk2 }, .fileLocked)
          else
            let disk3 := alSet (alRemove disk2 csv_path) unflagged_path df
            let fees1 := alRekey metadata.fees old_basename new_basename
            let ff1 := metadata.flagged_files.erase old_basename
            let meta1 : Meta := ⟨fees1, ff1, !ff1.isEmpty⟩
            let s1 := propagate_file_rename csv_path unflagged_path
              { s with disk := disk3 }
            let orig := s.current_session
            if containsSubstr orig "-flag" && !meta1.flagged then
              if o.folderPreOk then
                if !o.folderAccess then (s1, .folderLocked)
                else if o.folderRenameOk then
                  let s2 := rename_session_folder orig (replaceAll orig "-flag" "") s1
                  ({ s2 with diskMeta := meta1 }, .ok)
                else ({ s1 with diskMeta := meta1 }, .ok)
              else ({ s1 with diskMeta := meta1 }, .ok)
            else ({ s1 with diskMeta := meta1 }, .ok)

/-! ## Session creation (`create_session`, main.py:857-930) -/

/-- The first collision loop of `create_session` (main.py:867-873):
starting from suffix 2, append `-vN` to the base name until it is not
taken.  The loop always terminates because at most `existing.length`
candidates can collide, so fuel `existing.length + 1` suffices. -/
def freshLoop (existing : List String) (base : String) : ℕ → ℕ → String
  | _, 0 => base
  | k, fuel + 1 =>
    let cand := base ++ "-v" ++ toString k
    if existing.contains cand then freshLoop existing base (k + 1) fuel else cand

/-- Unique session name under the sessions root (main.py:867-873). -/
def fresh_session_name (existing : List String) (base : String) : String :=
  if existing.contains base then freshLoop existing base 2 (existing.length + 1)
  else base

/-- The second, compounding collision loop (main.py:905-909): the `-vN`
pieces accumulate on the already-flag-suffixed name. -/
def freshFlagLoop (existing : List String) : String → ℕ → ℕ → String
  | name, _, 0 => name
  | name, k, fuel + 1 =>
    if existing.contains name then
      freshFlagLoop existing (name ++ "-v" ++ toString k) (k + 1) fuel
    else name

/-- Per-file output name in `create_session` (main.py:890-893): when the
ingested rows contain an `other` status and the name does not already
end in `-flag.csv`, every `.csv` occurrence is replaced by `-flag.csv`
(Python `str.replace` replaces all occurrences). -/
def create_out_name (fname : String) (hasOther : Bool) : String :=
  if hasOther && !endsWithStr fname "-flag.csv" then
    replaceAll fname ".csv" "-flag.csv"
  else fname

/-- What `create_session` produces for the claims: the written files, the
derived session flag, the flagged-file list and the final folder name. -/
structure CreateResult where
  files : List (String × Frame)
  flagged : Bool
  flagged_files : List String
  session_name : String
deriving DecidableEq, Repr

/-- `create_session` (main.py:857-930) restricted to its ledger content:
ingest every uploaded frame, mark and rename files containing an `other`
status (main.py:884-900), and suffix the session folder name with
`-flag` when any file was flagged (main.py:902-913). -/
def create_session (base_session_name : String) (existing : List String)
    (inputs : List (String × Frame)) : CreateResult :=
  let processed := inputs.map (fun fv =>
    let f := ingest_frame fv.2
    (create_out_name fv.1 (anyOther f.rows), f))
  let flagged := processed.any (fun fv => anyOther fv.2.rows)
  let flagged_files := (processed.map Prod.fst).filter
    (fun n => endsWithStr n "-flag.csv")
  let name1 := fresh_session_name existing base_session_name
  let name2 :=
    if flagged && !containsSubstr name1 "-flag" then
      freshFlagLoop existing (name1 ++ "-flag") 2 (existing.length + 1)
    else name1
  ⟨processed, flagged, flagged_files, name2⟩

/-! ## Payment summary grouping and binary64 accumulation
(`build_payment_summary`, main.py:1971-2111)

The program stores and accumulates these quantities as IEEE-754 binary64
Python floats.  A finite double is a dyadic rational, modelled here as
`Dy` (value `m * 2^k`); the arithmetic below implements binary64
round-to-nearest, ties-to-even on the exact dyadic results, which is
exact IEEE semantics for the normal, non-overflowing magnitudes these
ledgers inhabit (no overflow, subnormal or NaN handling is modelled).
Everything is integer arithmetic, so it evaluates in the kernel. -/

/-- `2 ^ n` over ℕ by structural recursion. -/
def natPow2 : ℕ → ℕ
  | 0 => 1
  | n + 1 => 2 * natPow2 n

/-- A dyadic rational `m * 2^k`: the value of a finite binary64 double. -/
structure Dy where
  m : ℤ
  k : ℤ
deriving DecidableEq, Repr

/-- Number of binary digits of `n` (0 for 0), fuel-bounded. -/
def bitLen : ℕ → ℕ → ℕ
  | 0, _ => 0
  | _ + 1, 0 => 0
  | fuel + 1, n => bitLen fuel (n / 2) + 1

/-- Canonical form: strip factors of two from the mantissa, so that
structural equality of canonical `Dy` values is value equality — as
Python float equality is. -/
def dyNormLoop : ℕ → ℤ → ℤ → Dy
  | 0, m, k => ⟨m, k⟩
  | fuel + 1, m, k => if m % 2 = 0 then dyNormLoop fuel (m / 2) (k + 1) else ⟨m, k⟩

def dyNorm (a : Dy) : Dy :=
  if a.m = 0 then ⟨0, 0⟩ else dyNormLoop 1200 a.m a.k

/-- Round an exact dyadic value to 53 significant bits, round to
nearest, ties to even: binary64 rounding of an exact result. -/
def roundF64Dy (a : Dy) : Dy :=
  if a.m = 0 then ⟨0, 0⟩
  else
    let n : ℕ := a.m.natAbs
    let len := bitLen 1200 n
    if len ≤ 53 then dyNorm a
    else
      let s := len - 53
      let q := n / natPow2 s
      let r := n % natPow2 s
      let half := natPow2 (s - 1)
      let q2 := if r < half then q else if half < r then q + 1
        else if q % 2 = 0 then q else q + 1
      dyNorm ⟨if a.m < 0 then -(q2 : ℤ) else (q2 : ℤ), a.k + (s : ℤ)⟩

/-- Exact dyadic sum (mantissas aligned to the smaller exponent). -/
def dyAdd (a b : Dy) : Dy :=
  if a.k ≤ b.k then ⟨a.m + b.m * (natPow2 (b.k - a.k).toNat : ℤ), a.k⟩
  else ⟨a.m * (natPow2 (a.k - b.k).toNat : ℤ) + b.m, b.k⟩

/-- Binary64 `+`: the exact sum rounded once. -/
def f64Add (a b : Dy) : Dy := roundF64Dy (dyAdd a b)

/-- Binary64 `*`: the exact product rounded once. -/
def f64Mul (a b : Dy) : Dy := roundF64Dy ⟨a.m * b.m, a.k + b.k⟩

/-- Binary64 `-`. -/
def f64Sub (a b : Dy) : Dy := roundF64Dy (dyAdd a ⟨-b.m, b.k⟩)

/-- Float comparison `a <= b` (exact on values). -/
def dyLe (a b : Dy) : Bool := (dyAdd a ⟨-b.m, b.k⟩).m ≤ 0

/-- `2^e ≤ n/d` decided in integers. -/
def le2Pow (e : ℤ) (n d : ℕ) : Bool :=
  if 0 ≤ e then d * natPow2 e.toNat ≤ n else d ≤ n * natPow2 (-e).toNat

/-- `⌊log₂ (n/d)⌋` for positive `n/d`. -/
def floorLog2Frac (n d : ℕ) : ℤ :=
  let e0 : ℤ := (bitLen 1200 n : ℤ) - (bitLen 1200 d : ℤ)
  if le2Pow e0 n d then e0 else e0 - 1

/-- The binary64 double nearest to `num/den` (round to nearest, ties to
even): the value Python gives a decimal literal such as `0.1`. -/
def dyOfFrac (num : ℤ) (den : ℕ) : Dy :=
  if num = 0 then ⟨0, 0⟩
  else
    let n := num.natAbs
    let e := floorLog2Frac n den
    let shift := 52 - e
    let t := if 0 ≤ shift then n * natPow2 shift.toNat else n
    let d2 := if 0 ≤ shift then den else den * natPow2 (-shift).toNat
    let q := t / d2
    let r := t % d2
    let q2 := if 2 * r < d2 then q else if d2 < 2 * r then q + 1
      else if q % 2 = 0 then q else q + 1
    dyNorm ⟨if num < 0 then -(q2 : ℤ) else (q2 : ℤ), e - 52⟩

/-- The exact rational value of a dyadic double (for statements about
exact accumulation; never evaluated by the kernel). -/
def dyVal (a : Dy) : ℚ := (a.m : ℚ) * (2 : ℚ) ^ a.k

/-- Exact rational value of a row of four doubles. -/
def quadVal (v : Dy × Dy × Dy × Dy) : ℚ × ℚ × ℚ × ℚ :=
  (dyVal v.1, dyVal v.2.1, dyVal v.2.2.1, dyVal v.2.2.2)

/-- Python `sorted` (stable, ascending) as structural insertion sort. -/
def insertSorted {α : Type} (le : α → α → Bool) (x : α) : List α → List α
  | [] => [x]
  | y :: ys => if le x y then x :: y :: ys else y :: insertSorted le x ys

def sortBy {α : Type} (le : α → α → Bool) : List α → List α
  | [] => []
  | x :: xs => insertSorted le x (sortBy le xs)

/-- Python string `<=`: lexicographic by code point. -/
def strLtChars : List Char → List Char → Bool
  | [], [] => false
  | [], _ :: _ => true
  | _ :: _, [] => false
  | a :: as, b :: bs => if a < b then true else if b < a then false else strLtChars as bs

def strLeB (a b : String) : Bool := !(strLtChars b.toList a.toList)

/-- Count lookup `counts.get(status, 0)`. -/
def getCount (c : Counts) (status : String) : ℕ :=
  (List.lookup status c).getD 0

/-- `fee_schedule.get(fname, 0.0)` over doubles: a file with no price
entry contributes with price 0.0 (main.py:2045). -/
def price_for_f64 (fees : List (String × Dy)) (fname : String) : Dy :=
  (List.lookup fname fees).getD ⟨0, 0⟩

/-- The `(Gross, TrackitHub, PayPal, club)` row of one file
(main.py:2050-2057) in binary64 arithmetic: every `+`, `*`, `-` and the
per-unit `sum(...)` accumulation round as Python floats do.  The small
registrant counts convert to doubles exactly. -/
def row_financials_f64 (price : Dy) (regular manual : ℕ) : Dy × Dy × Dy × Dy :=
  let gross := f64Mul ⟨(regular : ℤ) + (manual : ℤ), 0⟩ price
  let trackithub := f64Mul gross (dyOfFrac 10 100)
  let paypal := (List.range regular).foldl (fun acc _ =>
    f64Add acc (if dyLe price ⟨10, 0⟩ then
        f64Add (f64Mul price (dyOfFrac 5 100)) (dyOfFrac 9 100)
      else
        f64Add (f64Mul price (dyOfFrac 349 10000)) (dyOfFrac 49 100))) ⟨0, 0⟩
  (gross, trackithub, paypal, f64Sub (f64Sub gross trackithub) paypal)

/-- Per-file row of `build_payment_summary` (main.py:2044-2048):
price and counts looked up by file name. -/
def file_row_vals_f64 (status_counts : List (String × Counts))
    (fee_schedule : List (String × Dy)) (fname : String) : Dy × Dy × Dy × Dy :=
  row_financials_f64 (price_for_f64 fee_schedule fname)
    (getCount ((List.lookup fname status_counts).getD []) "regular")
    (getCount ((List.lookup fname status_counts).getD []) "manual")

/-- One `grand_financial_totals[col] += val` step for the four columns
(main.py:2064-2065), in binary64. -/
def addF64row (acc v : Dy × Dy × Dy × Dy) : Dy × Dy × Dy × Dy :=
  (f64Add acc.1 v.1, f64Add acc.2.1 v.2.1,
   f64Add acc.2.2.1 v.2.2.1, f64Add acc.2.2.2 v.2.2.2)

/-- Grand financial totals as the program accumulates them over a file
iteration order (main.py:1971-1972, 2064-2065): a running binary64 `+=`
per column, started from `0.0`. -/
def grand_totals_f64 (order : List String)
    (status_counts : List (String × Counts))
    (fee_schedule : List (String × Dy)) : Dy × Dy × Dy × Dy :=
  order.foldl (fun acc n => addF64row acc (file_row_vals_f64 status_counts fee_schedule n))
    (⟨0, 0⟩, ⟨0, 0⟩, ⟨0, 0⟩, ⟨0, 0⟩)

/-- Flat (`"unsorted"`) mode iterates one group holding
`sorted(status_counts.keys())` (main.py:1974-1976). -/
def flat_file_order (status_counts : List (String × Counts)) : List String :=
  sortBy strLeB (status_counts.map Prod.fst)

/-- The distinct price tiers of by-price (`"sorted"`) mode, iterated in
ascending order (main.py:1977-1985); tiers are keyed by float value. -/
def tier_prices_f64 (names : List String)
    (fee_schedule : List (String × Dy)) : List Dy :=
  sortBy dyLe ((names.map (price_for_f64 fee_schedule)).dedup)

/-- By-price mode visits, tier by ascending tier, the files of that tier
in sorted name order (main.py:1977-1986). -/
def tier_file_order_f64 (names : List String)
    (fee_schedule : List (String × Dy)) : List String :=
  (tier_prices_f64 names fee_schedule).flatMap (fun p =>
    sortBy strLeB (names.filter (fun n => price_for_f64 fee_schedule n = p)))

/-- `show_total = len(files) > 1` (main.py:1996): a group's "Total" row
exists only for groups of more than one file. -/
def show_total (files : List String) : Bool :=
  files.length > 1

/-! ## Helper lemmas -/

theorem paypal_fee_closed (P : ℚ) (r : ℕ) :
    paypal_fee P r =
      (r : ℚ) * (if P ≤ 10 then P * 0.05 + 0.09 else P * 0.0349 + 0.49) := by
  induction r with
  | zero => simp [paypal_fee]
  | succ n ih =>
    unfold paypal_fee at ih ⊢
    rw [List.range_succ, List.map_append, List.sum_append, ih]
    simp only [List.map_cons, List.map_nil, List.sum_cons, List.sum_nil]
    push_cast
    ring

/-! ## C1: per-file financial formulas -/

/-- C1: the financial engine computes, for price `P`, `regularCount r`,
`manualCount m`, gross `(r+m)*P`, platform fee `gross*0.10`, processor
fee `r * (P*0.05+0.09)` for `P ≤ 10` (boundary inclusive) and
`r * (P*0.0349+0.49)` otherwise — the per-unit loop of the source summed
over the `r` regular units with no intermediate rounding — and net
`gross - platformFee - processorFee`; a file with no price entry
contributes with price 0; and the `P=10, r=2, m=0` scenario yields
`(20, 2.0, 1.18, 16.82)`. -/
theorem financial_engine_formulas :
    (∀ (P : ℚ) (r m : ℕ),
      row_financials P r m =
        (((r : ℚ) + m) * P,
         ((r : ℚ) + m) * P * 0.10,
         (r : ℚ) * (if P ≤ 10 then P * 0.05 + 0.09 else P * 0.0349 + 0.49),
         ((r : ℚ) + m) * P - ((r : ℚ) + m) * P * 0.10 -
           (r : ℚ) * (if P ≤ 10 then P * 0.05 + 0.09 else P * 0.0349 + 0.49))) ∧
    (∀ (fees : List (String × ℚ)) (fname : String),
      List.lookup fname fees = none → price_for fees fname = 0) ∧
    row_financials 10 2 0 = (20, 2, 1.18, 16.82) := by
  refine ⟨?_, ?_, ?_⟩
  · intro P r m
    unfold row_financials
    rw [paypal_fee_closed]
  · intro fees fname h
    unfold price_for
    rw [h]
    rfl
  · unfold row_financials
    rw [paypal_fee_closed]
    norm_num

/-- C1 witness: the missing-price hypothesis discharged on the empty fee
schedule, together with the concrete scenario. -/
theorem financial_engine_formulas_witness :
    price_for [] "missing.csv" = 0 ∧ row_financials 10 2 0 = (20, 2, 1.18, 16.82) :=
  ⟨financial_engine_formulas.2.1 [] "missing.csv" rfl,
   financial_engine_formulas.2.2⟩

/-! ## C2: status classifier -/

/-- C2: `determine_default_status` agrees with the spec's strictly
ordered first-match rule list (comp-list name, "comped" note, waitlist
phrase, "refund", "manually confirmed by", regular-registration phrase,
fallthrough `other`), and classifies the
`("Manually confirmed by staff", "Jane Doe")` scenario as `manual`.
The function is a total Lean function, hence total and side-effect
free. -/
theorem classifier_first_match_spec :
    (∀ notes name, determine_default_status notes name = classifySpec notes name) ∧
    determine_default_status "Manually confirmed by staff" "Jane Doe" = "manual" := by
  constructor
  · intro notes name
    unfold determine_default_status classifySpec specRules
    cases h1 : COMPED_NAMES.contains (lowerStr (stripStr name)) <;>
      cases h2 : containsSubstr (lowerStr notes) "comped" <;>
      cases h3 : containsSubstr (lowerStr notes)
        "no capacity, and room on the waiting list : register" <;>
      cases h4 : containsSubstr (lowerStr notes) "refund" <;>
      cases h5 : containsSubstr (lowerStr notes) "manually confirmed by" <;>
      cases h6 : containsSubstr (lowerStr notes) "not over capacity: register" <;>
      (simp only [h1, h2, h3, h4, h5, h6]; simp [List.find?])
  · decide

/-! ## C3: grouping-mode independence of grand totals -/

theorem flatMap_perm_congr {α β : Type} {ks : List α} {f g : α → List β}
    (h : ∀ k ∈ ks, (f k).Perm (g k)) : (ks.flatMap f).Perm (ks.flatMap g) := by
  induction ks with
  | nil => simp
  | cons k ks ih =>
    simp only [List.flatMap_cons]
    exact (h k (by simp)).append (ih (fun k hk => h k (by simp [hk])))

theorem flatMap_congr_mem {α β : Type} {ks : List α} {f g : α → List β}
    (h : ∀ k ∈ ks, f k = g k) : ks.flatMap f = ks.flatMap g := by
  induction ks with
  | nil => rfl
  | cons k ks ih =>
    simp only [List.flatMap_cons]
    rw [h k (by simp), ih (fun k hk => h k (by simp [hk]))]

theorem perm_key_cover {α β : Type} [DecidableEq α] (f : β → α) :
    ∀ (keys : List α) (names : List β), keys.Nodup →
      (∀ n ∈ names, f n ∈ keys) →
      (keys.flatMap (fun k => names.filter (fun n => f n = k))).Perm names := by
  intro keys
  induction keys with
  | nil =>
    intro names _ hcov
    match names with
    | [] => simp
    | n :: _ => exact absurd (hcov n (by simp)) (List.not_mem_nil _)
  | cons k ks ih =>
    intro names hnd hcov
    simp only [List.flatMap_cons]
    have hk : k ∉ ks := (List.nodup_cons.mp hnd).1
    have hrw : ∀ k' ∈ ks,
        names.filter (fun n => f n = k') =
          (names.filter (fun n => !(f n = k))).filter (fun n => f n = k') := by
      intro k' hk'
      rw [List.filter_filter]
      apply List.filter_congr
      intro n _
      by_cases h : f n = k'
      · have hkk : k' ≠ k := fun e => hk (e ▸ hk')
        have hnk : ¬ (f n = k) := by rw [h]; exact hkk
        simp [h, hnk, hkk]
      · simp [h]
    have hmap : ks.flatMap (fun k' => names.filter (fun n => f n = k')) =
        ks.flatMap (fun k' =>
          (names.filter (fun n => !(f n = k))).filter (fun n => f n = k')) :=
      flatMap_congr_mem hrw
    rw [hmap]
    have hperm2 := ih (names.filter (fun n => !(f n = k))) (List.nodup_cons.mp hnd).2
      (by
        intro n hn
        have hmem := List.mem_filter.mp hn
        have hfk : f n ≠ k := by simpa using hmem.2
        have := hcov n hmem.1
        simp only [List.mem_cons] at this
        exact this.resolve_left hfk)
    exact List.Perm.trans (List.Perm.append_left _ hperm2)
      (List.filter_append_perm _ names)

theorem insertSorted_perm {α : Type} (le : α → α → Bool) (x : α) (l : List α) :
    (insertSorted le x l).Perm (x :: l) := by
  induction l with
  | nil => rfl
  | cons y ys ih =>
    unfold insertSorted
    by_cases h : le x y = true
    · rw [if_pos h]
    · rw [if_neg h]
      exact (ih.cons y).trans (List.Perm.swap x y ys)

theorem sortBy_perm {α : Type} (le : α → α → Bool) (l : List α) :
    (sortBy le l).Perm l := by
  induction l with
  | nil => rfl
  | cons x xs ih =>
    unfold sortBy
    exact (insertSorted_perm le x (sortBy le xs)).trans (ih.cons x)

theorem tier_file_order_f64_perm (names : List String) (fs : List (String × Dy)) :
    (tier_file_order_f64 names fs).Perm names := by
  unfold tier_file_order_f64
  have h1 : (tier_prices_f64 names fs).flatMap (fun p =>
      sortBy strLeB (names.filter (fun n => price_for_f64 fs n = p))) |>.Perm
      ((tier_prices_f64 names fs).flatMap (fun p =>
        names.filter (fun n => price_for_f64 fs n = p))) :=
    flatMap_perm_congr (fun p _ => sortBy_perm _ _)
  have h2 : ((tier_prices_f64 names fs).flatMap (fun p =>
      names.filter (fun n => price_for_f64 fs n = p))).Perm
      ((names.map (price_for_f64 fs)).dedup.flatMap (fun p =>
        names.filter (fun n => price_for_f64 fs n = p))) :=
    List.Perm.flatMap_right _ (sortBy_perm _ _)
  have h3 : ((names.map (price_for_f64 fs)).dedup.flatMap (fun p =>
      names.filter (fun n => price_for_f64 fs n = p))).Perm names :=
    perm_key_cover (price_for_f64 fs) _ names (List.nodup_dedup _)
      (fun n hn => List.mem_dedup.mpr (List.mem_map_of_mem _ hn))
  exact (h1.trans h2).trans h3

/-- C3 counterexample: the program accumulates the grand totals in
IEEE-754 double arithmetic, which is order-sensitive.  Three one-regular
files priced at the doubles 0.3, 0.2, 0.1 — alphabetical name order
descending in price — give a flat-mode gross total of
`0.3 + 0.2 + 0.1 = 0.6` (the double `5404319552844595 * 2^-53`) but a
by-tier gross total of `0.1 + 0.2 + 0.3 = 0.6000000000000001` (the
double `1351079888211149 * 2^-51`), so the two modes' grand totals are
not identical. -/
theorem grouping_grand_totals_float_cex :
    (grand_totals_f64
        (flat_file_order [("a.csv", [("regular", 1)]), ("b.csv", [("regular", 1)]),
          ("c.csv", [("regular", 1)])])
        [("a.csv", [("regular", 1)]), ("b.csv", [("regular", 1)]),
          ("c.csv", [("regular", 1)])]
        [("a.csv", dyOfFrac 3 10), ("b.csv", dyOfFrac 2 10),
          ("c.csv", dyOfFrac 1 10)]).1 = ⟨5404319552844595, -53⟩ ∧
    (grand_totals_f64
        (tier_file_order_f64 ["a.csv", "b.csv", "c.csv"]
          [("a.csv", dyOfFrac 3 10), ("b.csv", dyOfFrac 2 10),
            ("c.csv", dyOfFrac 1 10)])
        [("a.csv", [("regular", 1)]), ("b.csv", [("regular", 1)]),
          ("c.csv", [("regular", 1)])]
        [("a.csv", dyOfFrac 3 10), ("b.csv", dyOfFrac 2 10),
          ("c.csv", dyOfFrac 1 10)]).1 = ⟨1351079888211149, -51⟩ ∧
    grand_totals_f64
        (tier_file_order_f64 ["a.csv", "b.csv", "c.csv"]
          [("a.csv", dyOfFrac 3 10), ("b.csv", dyOfFrac 2 10),
            ("c.csv", dyOfFrac 1 10)])
        [("a.csv", [("regular", 1)]), ("b.csv", [("regular", 1)]),
          ("c.csv", [("regular", 1)])]
        [("a.csv", dyOfFrac 3 10), ("b.csv", dyOfFrac 2 10),
          ("c.csv", dyOfFrac 1 10)] ≠
      grand_totals_f64
        (flat_file_order [("a.csv", [("regular", 1)]), ("b.csv", [("regular", 1)]),
          ("c.csv", [("regular", 1)])])
        [("a.csv", [("regular", 1)]), ("b.csv", [("regular", 1)]),
          ("c.csv", [("regular", 1)])]
        [("a.csv", dyOfFrac 3 10), ("b.csv", dyOfFrac 2 10),
          ("c.csv", dyOfFrac 1 10)] := by
  refine ⟨?_, ?_, ?_⟩ <;> decide

/-- C3 amended: the by-tier and flat modes iterate permutations of the
same file set and compute each file's row with the one per-file function
`file_row_vals_f64`, so grouping never changes the underlying per-file
numbers and any order-insensitive accumulation — in particular the exact
rational sum of the per-file double rows — yields identical grand totals
in both modes; a group's "Total" row is shown exactly when the group has
more than one file.  The program's running `+=`, however, rounds in
binary64 at every step, so the two modes' accumulated grand totals can
differ in the final ulp (see the counterexample). -/
theorem grouping_permutation_exact_totals :
    (∀ (status_counts : List (String × Counts)) (fee_schedule : List (String × Dy)),
      (tier_file_order_f64 (status_counts.map Prod.fst) fee_schedule).Perm
        (flat_file_order status_counts)) ∧
    (∀ (status_counts : List (String × Counts)) (fee_schedule : List (String × Dy)),
      ((tier_file_order_f64 (status_counts.map Prod.fst) fee_schedule).map
        (fun n => quadVal (file_row_vals_f64 status_counts fee_schedule n))).sum =
      ((flat_file_order status_counts).map
        (fun n => quadVal (file_row_vals_f64 status_counts fee_schedule n))).sum) ∧
    (∀ files : List String, show_total files = true ↔ 1 < files.length) := by
  have hperm : ∀ (sc : List (String × Counts)) (fs : List (String × Dy)),
      (tier_file_order_f64 (sc.map Prod.fst) fs).Perm (flat_file_order sc) :=
    fun sc fs => (tier_file_order_f64_perm _ fs).trans (sortBy_perm _ _).symm
  refine ⟨hperm, ?_, ?_⟩
  · intro sc fs
    exact List.Perm.sum_eq (List.Perm.map _ (hperm sc fs))
  · intro files
    simp [show_total]


/-! ## C6: current_status round-trips through persistence -/

/-- C6: reloading a stored session table keeps every record's
`current_status` exactly as persisted — `load_session_from_folder` only
seeds `current_status` from `default_status` when the column is absent
(main.py:2894-2895), and every table the engine writes has the column,
so write-then-read is the identity on `current_status`. -/
theorem session_roundtrip_current_status :
    (∀ stored : Frame, stored.hasCurrent = true →
      (load_csv_frame stored).rows.map (fun r => r.current_status) =
        stored.rows.map (fun r => r.current_status)) ∧
    (∀ f : Frame,
      (load_csv_frame (ingest_frame f)).rows.map (fun r => r.current_status) =
        (ingest_frame f).rows.map (fun r => r.current_status)) := by
  have key : ∀ stored : Frame, stored.hasCurrent = true →
      (load_csv_frame stored).rows.map (fun r => r.current_status) =
        stored.rows.map (fun r => r.current_status) := by
    intro stored h
    simp [load_csv_frame, h, List.map_map]
  exact ⟨key, fun f => key (ingest_frame f) rfl⟩

/-- C6 witness: the round-trip applied to a concrete stored one-row
table whose persisted `current_status` (`"manual"`) differs from what
re-derivation from `default_status` would give. -/
theorem session_roundtrip_current_status_witness :
    (load_csv_frame ⟨true, true,
        [{ name := "Jane Doe", email := "j@x", phone := "", status_raw := "",
           reg_time := "", notes := "", default_status := "other",
           current_status := "manual", abnotes := "note" }]⟩).rows.map
      (fun r => r.current_status) = ["manual"] := by
  rw [session_roundtrip_current_status.1 _ rfl]
  rfl

/-! ## C9: is_flagged derived from current data -/

/-- C9: `is_file_flagged` holds iff at least one record's
`current_status` is `other`; since it is recomputed from the row data on
every call, the equivalence in particular holds immediately after any
`setStatus` edit. -/
theorem is_flagged_iff_some_other :
    (∀ f : Frame, f.hasCurrent = true →
      (is_file_flagged f = true ↔ ∃ r ∈ f.rows, r.current_status = "other")) ∧
    (∀ (f : Frame) (i : ℕ) (st : String), f.hasCurrent = true →
      (is_file_flagged { f with rows := setStatus f.rows i st } = true ↔
        ∃ r ∈ setStatus f.rows i st, r.current_status = "other")) := by
  have key : ∀ f : Frame, f.hasCurrent = true →
      (is_file_flagged f = true ↔ ∃ r ∈ f.rows, r.current_status = "other") := by
    intro f h
    simp [is_file_flagged, anyOther, h, List.any_eq_true]
  exact ⟨key, fun f i st h => key { f with rows := setStatus f.rows i st } h⟩

/-- C9 witness: the equivalence at a concrete flagged one-row set and
immediately after a `setStatus` edit that clears the `other` status. -/
theorem is_flagged_iff_some_other_witness :
    (let f : Frame := ⟨true, true, [⟨"A", "", "", "", "", "", "other", "other", ""⟩]⟩
     is_file_flagged f = true ↔ ∃ r ∈ f.rows, r.current_status = "other") :=
  is_flagged_iff_some_other.1 _ rfl

/-! ## C7: default_status immutability -/

/-- C7 counterexample: saving a reviewer note re-derives the whole
`default_status` column (main.py:2424), so a record whose persisted
`default_status` (`"regular"`) disagrees with the classifier's output on
its `Notes`/`Name` (empty notes classify as `"other"`) has its
`default_status` rewritten by the reviewer-note save. -/
theorem note_save_rewrites_default_status :
    (on_save_note
        [{ name := "Bob", email := "", phone := "", status_raw := "",
           reg_time := "", notes := "", default_status := "regular",
           current_status := "regular", abnotes := "" }] "Bob" "hi").map
      (fun r => r.default_status) = ["other"] ∧ ("other" : String) ≠ "regular" := by
  constructor
  · decide
  · decide

/-- C7 amended: `setStatus` mutates exactly the addressed record's
`current_status` and nothing else; but the reviewer-note save and the
session reload both re-derive the `default_status` column from
`Notes`/`Name`, so `default_status` is preserved by them exactly when
the stored value already equals the classifier's output — which holds
for every record the engine itself classified at ingestion. -/
theorem set_status_frame_and_default_rederivation :
    (∀ (rows : List Row) (i : ℕ) (st : String) (j : ℕ),
      (setStatus rows i st)[j]? =
        if j = i then (rows[j]?).map (fun r => { r with current_status := st })
        else rows[j]?) ∧
    (∀ (rows : List Row) (pname text : String),
      (on_save_note rows pname text).map (fun r => r.default_status) =
        rows.map (fun r => determine_default_status r.notes r.name)) ∧
    (∀ (rows : List Row) (pname text : String),
      (∀ r ∈ rows, r.default_status = determine_default_status r.notes r.name) →
      (on_save_note rows pname text).map (fun r => r.default_status) =
        rows.map (fun r => r.default_status)) ∧
    (∀ stored : Frame,
      (load_csv_frame stored).rows.map (fun r => r.default_status) =
        stored.rows.map (fun r => determine_default_status r.notes r.name)) := by
  have h1 : ∀ (rows : List Row) (i : ℕ) (st : String) (j : ℕ),
      (setStatus rows i st)[j]? =
        if j = i then (rows[j]?).map (fun r => { r with current_status := st })
        else rows[j]? := by
    intro rows
    induction rows with
    | nil => intro i st j; cases i <;> cases j <;> simp [setStatus]
    | cons r rs ih =>
      intro i st j
      cases i with
      | zero =>
        cases j with
        | zero => simp [setStatus]
        | succ j => simp [setStatus]
      | succ i =>
        cases j with
        | zero => simp [setStatus]
        | succ j => simp [setStatus, ih i st j]
  have h2 : ∀ (rows : List Row) (pname text : String),
      (on_save_note rows pname text).map (fun r => r.default_status) =
        rows.map (fun r => determine_default_status r.notes r.name) := by
    intro rows pname text
    unfold on_save_note
    rw [List.map_map, List.map_map]
    apply List.map_congr_left
    intro r _
    by_cases h : r.name = pname <;> simp [h]
  refine ⟨h1, h2, ?_, ?_⟩
  · intro rows pname text hdef
    rw [h2]
    exact List.map_congr_left (fun r hr => (hdef r hr).symm)
  · intro stored
    cases h : stored.hasCurrent <;>
      simp [load_csv_frame, h, List.map_map]

/-- C7 witness of the amended statement: the preservation clause applied
to a concrete record whose stored `default_status` agrees with the
classifier (notes contain "refund"), and the `setStatus` frame property
at index 0. -/
theorem set_status_frame_and_default_rederivation_witness :
    (on_save_note
        [{ name := "Al", email := "", phone := "", status_raw := "",
           reg_time := "", notes := "please refund", default_status := "refund",
           current_status := "refund", abnotes := "" }] "Al" "t").map
      (fun r => r.default_status) =
      [({ name := "Al", email := "", phone := "", status_raw := "",
           reg_time := "", notes := "please refund", default_status := "refund",
           current_status := "refund", abnotes := "" } : Row)].map
      (fun r => r.default_status) :=
  set_status_frame_and_default_rederivation.2.2.1 _ "Al" "t" (by decide)

/-! ## Association-list lemmas for the propagator claims -/

theorem beq_false_of_ne {a b : String} (h : a ≠ b) : (a == b) = false := by
  simp only [beq_eq_false_iff_ne, ne_eq]
  exact h

theorem lookup_alSet_self {α : Type} (l : List (String × α)) (k : String) (v : α) :
    List.lookup k (alSet l k v) = some v := by
  induction l with
  | nil => simp [alSet, List.lookup_cons]
  | cons kv t ih =>
    obtain ⟨k1, v1⟩ := kv
    by_cases h : k1 = k
    · subst h
      simp [alSet, List.lookup_cons]
    · have h1 : (k1 == k) = false := beq_false_of_ne h
      have h2 : (k == k1) = false := beq_false_of_ne (fun e => h e.symm)
      simp only [alSet, h1, Bool.false_eq_true, if_false, List.lookup_cons, h2]
      exact ih

theorem alContains_alRemove_self {α : Type} (l : List (String × α)) (k : String) :
    alContains (alRemove l k) k = false := by
  induction l with
  | nil => rfl
  | cons kv t ih =>
    obtain ⟨k1, v1⟩ := kv
    by_cases h : k1 = k
    · subst h
      simpa [alRemove] using ih
    · have h1 : (k1 == k) = false := beq_false_of_ne h
      simp only [alRemove, h1, Bool.false_eq_true, if_false, alContains, ih,
        Bool.or_false]

theorem alContains_alSet_ne {α : Type} {l : List (String × α)} {k : String}
    {v : α} {k' : String} (h : k' ≠ k) :
    alContains (alSet l k v) k' = alContains l k' := by
  induction l with
  | nil => simp [alSet, alContains, beq_false_of_ne (fun e => h e.symm)]
  | cons kv t ih =>
    obtain ⟨k1, v1⟩ := kv
    by_cases hk : k1 = k
    · subst hk
      simp [alSet, alContains, beq_false_of_ne (fun e => h e.symm)]
    · have h1 : (k1 == k) = false := beq_false_of_ne hk
      simp only [alSet, h1, Bool.false_eq_true, if_false, alContains, ih]

theorem stripFlagCsv_ne (p : String) (h : endsWithStr p "-flag.csv" = true) :
    stripFlagCsv p ≠ p := by
  have hlen : 9 ≤ p.toList.length := by
    unfold endsWithStr at h
    have hpre := (List.isPrefixOf_iff_prefix.mp h).length_le
    have h9 : ("-flag.csv".toList.reverse).length = 9 := rfl
    have hr : (p.toList.reverse).length = p.toList.length := List.length_reverse _
    rw [h9, hr] at hpre
    exact hpre
  intro heq
  have hl : (stripFlagCsv p).toList.length = p.toList.length := by rw [heq]
  unfold stripFlagCsv at hl
  rw [if_pos h] at hl
  have hrw : (String.mk (p.toList.take (p.toList.length - 9) ++ ".csv".toList)).toList
      = p.toList.take (p.toList.length - 9) ++ ".csv".toList := rfl
  rw [hrw, List.length_append, List.length_take] at hl
  have h4 : (".csv".toList).length = 4 := rfl
  rw [h4] at hl
  omega

/-! ## C8: propagation on an already-unflagged file is a no-op -/

/-- C8: when the resolved file's name carries no `-flag.csv` suffix,
`update_flag_state_for_file` returns before attempting any I/O: no
rename, no error, and the engine state is returned unchanged
(main.py:1266-1269). -/
theorem unflagged_propagation_noop :
    ∀ (s : EngineState) (o : RenameOracle) (p : String) (df : List Row),
      List.lookup (resolve_path s p) s.dataframes = some df →
      containsSubstr (basename (resolve_path s p)) "-flag.csv" = false →
      update_flag_state_for_file o p s = (s, OpResult.noop) := by
  intro s o p df h1 h2
  simp [update_flag_state_for_file, h1, h2]

/-- C8 witness: the no-op on a concrete unflagged single-file session. -/
theorem unflagged_propagation_noop_witness :
    update_flag_state_for_file ⟨true, true, fun _ => true, true, true, true⟩
        "sess/csv/a.csv"
        ⟨["sess/csv/a.csv"],
         [("sess/csv/a.csv", [⟨"A", "", "", "", "", "", "regular", "regular", ""⟩])],
         [("a.csv", [("regular", 1)])], [("a.csv", 10)], "sess",
         [("sess/csv/a.csv", [⟨"A", "", "", "", "", "", "regular", "regular", ""⟩])],
         ⟨[("a.csv", 10)], [], false⟩⟩ =
      (⟨["sess/csv/a.csv"],
        [("sess/csv/a.csv", [⟨"A", "", "", "", "", "", "regular", "regular", ""⟩])],
        [("a.csv", [("regular", 1)])], [("a.csv", 10)], "sess",
        [("sess/csv/a.csv", [⟨"A", "", "", "", "", "", "regular", "regular", ""⟩])],
        ⟨[("a.csv", 10)], [], false⟩⟩, OpResult.noop) :=
  unflagged_propagation_noop _ _ _
    [⟨"A", "", "", "", "", "", "regular", "regular", ""⟩] (by decide) (by decide)

/-! ## C5: rename failure surfaces a named error, prior state intact -/

/-- C5: when every one of the three bounded rename attempts fails, the
propagation surfaces the named "File Locked" message and aborts: none of
the in-memory indexes (`csv_paths`, `dataframes`, `status_counts`,
`fee_schedule`), the session pointer, or the stored metadata has been
rewritten (main.py:1313-1324) — indexes are only rewritten after the
rename succeeds, and the failed rename is never silently dropped. -/
theorem rename_failure_aborts_cleanly :
    ∀ (s : EngineState) (o : RenameOracle) (p : String) (df : List Row),
      List.lookup (resolve_path s p) s.dataframes = some df →
      containsSubstr (basename (resolve_path s p)) "-flag.csv" = true →
      anyOther df = false →
      alContains s.disk (resolve_path s p) = true →
      o.accessible = true →
      o.removeOk = true →
      (∀ i, i < 3 → o.renameOk i = false) →
      ((update_flag_state_for_file o p s).2 = OpResult.fileLocked ∧
       (update_flag_state_for_file o p s).1.csv_paths = s.csv_paths ∧
       (update_flag_state_for_file o p s).1.dataframes = s.dataframes ∧
       (update_flag_state_for_file o p s).1.status_counts = s.status_counts ∧
       (update_flag_state_for_file o p s).1.fee_schedule = s.fee_schedule ∧
       (update_flag_state_for_file o p s).1.current_session = s.current_session ∧
       (update_flag_state_for_file o p s).1.diskMeta = s.diskMeta) := by
  intro s o p df h1 h2 h3 h4 h5 h6 h7
  have hrs : renameAttemptsSucceed o = false := by
    have hr3 : List.range 3 = [0, 1, 2] := rfl
    simp [renameAttemptsSucceed, hr3, h7 0 (by omega), h7 1 (by omega),
      h7 2 (by omega)]
  simp [update_flag_state_for_file, h1, h2, h3, h4, h5, h6, hrs]

/-- C5 witness: all three rename attempts fail on a concrete flagged
clean file; the named error is surfaced and the indexes are intact. -/
theorem rename_failure_aborts_cleanly_witness :
    (update_flag_state_for_file ⟨true, true, fun _ => false, true, true, true⟩
        "sess-flag/csv/a-flag.csv"
        ⟨["sess-flag/csv/a-flag.csv"],
         [("sess-flag/csv/a-flag.csv",
           [⟨"A", "", "", "", "", "", "regular", "regular", ""⟩])],
         [("a-flag.csv", [("regular", 1)])], [("a-flag.csv", 10)], "sess-flag",
         [("sess-flag/csv/a-flag.csv",
           [⟨"A", "", "", "", "", "", "regular", "regular", ""⟩])],
         ⟨[("a-flag.csv", 10)], ["a-flag.csv"], true⟩⟩).2 = OpResult.fileLocked :=
  (rename_failure_aborts_cleanly _ _ _
    [⟨"A", "", "", "", "", "", "regular", "regular", ""⟩] (by decide) (by decide)
    (by decide) (by decide) (by decide) (by decide) (fun i _ => rfl)).1

/-! ## C10: a pre-existing file at the rename target is deleted -/

/-- C10: when the Flagged→Unflagged rename runs and a file already
exists at the unsuffixed target path, the engine removes that file first
(main.py:1305-1311), so the rename cannot fail for an occupied
destination; afterwards the target holds the renamed file's contents
(the pre-existing contents are gone) and the call reports no error. -/
theorem preexisting_target_deleted_before_rename :
    ∀ (s : EngineState) (o : RenameOracle) (p : String) (df : List Row),
      List.lookup (resolve_path s p) s.dataframes = some df →
      containsSubstr (basename (resolve_path s p)) "-flag.csv" = true →
      anyOther df = false →
      endsWithStr (resolve_path s p) "-flag.csv" = true →
      alContains s.disk (resolve_path s p) = true →
      alContains s.disk (stripFlagCsv (resolve_path s p)) = true →
      o.accessible = true → o.removeOk = true → o.renameOk 0 = true →
      containsSubstr s.current_session "-flag" = false →
      ((update_flag_state_for_file o p s).2 = OpResult.ok ∧
       List.lookup (stripFlagCsv (resolve_path s p))
         (update_flag_state_for_file o p s).1.disk = some df ∧
       alContains (update_flag_state_for_file o p s).1.disk
         (resolve_path s p) = false) := by
  intro s o p df h1 h2 h3 h4 h5 h6 h7 h8 h9 h10
  have hne : stripFlagCsv (resolve_path s p) ≠ resolve_path s p :=
    stripFlagCsv_ne _ h4
  have hne2 : resolve_path s p ≠ stripFlagCsv (resolve_path s p) :=
    fun e => hne e.symm
  have hd1 : alContains (alSet s.disk (resolve_path s p) df)
      (stripFlagCsv (resolve_path s p)) = true := by
    rw [alContains_alSet_ne hne]
    exact h6
  have hrs : renameAttemptsSucceed o = true := by
    have hr3 : List.range 3 = [0, 1, 2] := rfl
    simp [renameAttemptsSucceed, hr3, h9]
  refine ⟨?_, ?_, ?_⟩
  · simp [update_flag_state_for_file, h1, h2, h3, h5, h7, h8, hd1, hrs, h10,
      propagate_file_rename]
  · simp [update_flag_state_for_file, h1, h2, h3, h5, h7, h8, hd1, hrs, h10,
      propagate_file_rename, lookup_alSet_self]
  · simp [update_flag_state_for_file, h1, h2, h3, h5, h7, h8, hd1, hrs, h10,
      propagate_file_rename, alContains_alSet_ne hne2, alContains_alRemove_self]

/-- C10 witness: a concrete session where `sess/csv/a.csv` already
exists with different contents; after the propagation the target holds
the renamed file's rows and the old path is gone. -/
theorem preexisting_target_deleted_before_rename_witness :
    ((update_flag_state_for_file ⟨true, true, fun _ => true, true, true, true⟩
        "sess/csv/a-flag.csv"
        ⟨["sess/csv/a-flag.csv"],
         [("sess/csv/a-flag.csv",
           [⟨"A", "", "", "", "", "", "regular", "regular", ""⟩])],
         [("a-flag.csv", [("regular", 1)])], [("a-flag.csv", 10)], "sess",
         [("sess/csv/a-flag.csv",
           [⟨"A", "", "", "", "", "", "regular", "regular", ""⟩]),
          ("sess/csv/a.csv", [⟨"OLD", "", "", "", "", "", "other", "other", ""⟩])],
         ⟨[("a-flag.csv", 10)], ["a-flag.csv"], true⟩⟩).2 = OpResult.ok) ∧
    "sess/csv/a.csv" =
      stripFlagCsv (resolve_path
        ⟨["sess/csv/a-flag.csv"],
         [("sess/csv/a-flag.csv",
           [⟨"A", "", "", "", "", "", "regular", "regular", ""⟩])],
         [("a-flag.csv", [("regular", 1)])], [("a-flag.csv", 10)], "sess",
         [("sess/csv/a-flag.csv",
           [⟨"A", "", "", "", "", "", "regular", "regular", ""⟩]),
          ("sess/csv/a.csv", [⟨"OLD", "", "", "", "", "", "other", "other", ""⟩])],
         ⟨[("a-flag.csv", 10)], ["a-flag.csv"], true⟩⟩ "sess/csv/a-flag.csv") :=
  ⟨(preexisting_target_deleted_before_rename _ _ _
      [⟨"A", "", "", "", "", "", "regular", "regular", ""⟩] (by decide) (by decide)
      (by decide) (by decide) (by decide) (by decide) (by decide) (by decide)
      (by decide) (by decide)).1,
   by decide⟩

/-! ## C4: flag-suffix agreement -/

/-- C4 counterexample: an unsuffixed file whose only record has
`current_status = "other"` is flagged, yet running the flag propagation
leaves the engine state — including the file's on-disk name — entirely
unchanged (main.py:1266-1269 returns early for any unsuffixed file), so
after the operation the name carries no suffix while the derived flag is
true: the claimed two-directional agreement fails. -/
theorem unsuffixed_flagged_file_kept_cex :
    update_flag_state_for_file ⟨true, true, fun _ => true, true, true, true⟩
        "sess/csv/a.csv"
        ⟨["sess/csv/a.csv"],
         [("sess/csv/a.csv", [⟨"A", "", "", "", "", "", "other", "other", ""⟩])],
         [("a.csv", [("other", 1)])], [("a.csv", 10)], "sess",
         [("sess/csv/a.csv", [⟨"A", "", "", "", "", "", "other", "other", ""⟩])],
         ⟨[("a.csv", 10)], [], false⟩⟩ =
      (⟨["sess/csv/a.csv"],
        [("sess/csv/a.csv", [⟨"A", "", "", "", "", "", "other", "other", ""⟩])],
        [("a.csv", [("other", 1)])], [("a.csv", 10)], "sess",
        [("sess/csv/a.csv", [⟨"A", "", "", "", "", "", "other", "other", ""⟩])],
        ⟨[("a.csv", 10)], [], false⟩⟩, OpResult.noop) ∧
    is_file_flagged ⟨true, true, [⟨"A", "", "", "", "", "", "other", "other", ""⟩]⟩
      = true ∧
    containsSubstr (basename "sess/csv/a.csv") "-flag.csv" = false := by
  refine ⟨?_, ?_, ?_⟩ <;> decide

/-- C4 amended: after `update_flag_state_for_file` the reserved-suffix
agreement holds only in the Flagged→Unflagged direction.  An unsuffixed
file is never renamed — even when an edit has re-introduced an `other`
status, the engine state is returned unchanged — and a suffixed file
that still has an `other` record is likewise left unchanged; a suffixed
file with no remaining `other` record, whose rename I/O succeeds and
whose session folder name carries no `-flag` token (so the folder block
is skipped), is renamed to the suffix-stripped path with the tracked
path list rewritten and the record-set map, status-count cache and
fee-schedule keys rekeyed to it, restoring agreement for that file. -/
theorem flag_suffix_agreement_one_directional :
    ∀ (s : EngineState) (o : RenameOracle) (p : String) (df : List Row),
      List.lookup (resolve_path s p) s.dataframes = some df →
      ((containsSubstr (basename (resolve_path s p)) "-flag.csv" = false →
        update_flag_state_for_file o p s = (s, OpResult.noop)) ∧
       (anyOther df = true →
        update_flag_state_for_file o p s = (s, OpResult.noop)) ∧
       (containsSubstr (basename (resolve_path s p)) "-flag.csv" = true →
        anyOther df = false →
        alContains s.disk (resolve_path s p) = true →
        o.accessible = true → o.removeOk = true → o.renameOk 0 = true →
        containsSubstr s.current_session "-flag" = false →
        ((update_flag_state_for_file o p s).2 = OpResult.ok ∧
         (update_flag_state_for_file o p s).1.dataframes =
           alRekey s.dataframes (resolve_path s p)
             (stripFlagCsv (resolve_path s p)) ∧
         (update_flag_state_for_file o p s).1.csv_paths =
           s.csv_paths.map (fun q =>
             if q == resolve_path s p then stripFlagCsv (resolve_path s p)
             else q) ∧
         (update_flag_state_for_file o p s).1.status_counts =
           alRekey s.status_counts (basename (resolve_path s p))
             (basename (stripFlagCsv (resolve_path s p))) ∧
         (update_flag_state_for_file o p s).1.fee_schedule =
           alRekey s.fee_schedule (basename (resolve_path s p))
             (basename (stripFlagCsv (resolve_path s p)))))) := by
  intro s o p df h1
  refine ⟨?_, ?_, ?_⟩
  · intro h2
    simp [update_flag_state_for_file, h1, h2]
  · intro h2
    simp [update_flag_state_for_file, h1, h2]
  · intro h2 h3 h4 h5 h6 h7 h8
    have hrs : renameAttemptsSucceed o = true := by
      have hr3 : List.range 3 = [0, 1, 2] := rfl
      simp [renameAttemptsSucceed, hr3, h7]
    refine ⟨?_, ?_, ?_, ?_, ?_⟩ <;>
      simp [update_flag_state_for_file, h1, h2, h3, h4, h5, h6, hrs, h8,
        propagate_file_rename]

/-- C4 witness of the amended statement: the Flagged→Unflagged rename on
a concrete suffixed clean file completes with the indexes rekeyed to the
suffix-stripped path. -/
theorem flag_suffix_agreement_one_directional_witness :
    (update_flag_state_for_file ⟨true, true, fun _ => true, true, true, true⟩
        "sess/csv/a-flag.csv"
        ⟨["sess/csv/a-flag.csv"],
         [("sess/csv/a-flag.csv",
           [⟨"A", "", "", "", "", "", "regular", "regular", ""⟩])],
         [("a-flag.csv", [("regular", 1)])], [("a-flag.csv", 10)], "sess",
         [("sess/csv/a-flag.csv",
           [⟨"A", "", "", "", "", "", "regular", "regular", ""⟩])],
         ⟨[("a-flag.csv", 10)], ["a-flag.csv"], true⟩⟩).2 = OpResult.ok :=
  ((flag_suffix_agreement_one_directional _ _ _
      [⟨"A", "", "", "", "", "", "regular", "regular", ""⟩]
      (by decide)).2.2 (by decide) (by decide) (by decide) (by decide)
      (by decide) (by decide) (by decide)).1

end AnkleBreaker
